import Mathlib

/-!
Verification of the opensource-contributions-tracker repository.

The development shallowly embeds the two Python source files
(`generate_report.py` and the older `generate_github_contributions_report.py`):

* the paginated, retrying, rate-paced HTTP fetch loop `get_all_pages`
  becomes a fuel-indexed step function over an abstract response oracle,
  recording an event trace (requests, backoff sleeps, pacing sleeps);
* `process_github_data` becomes a pure function over an abstract
  environment of per-endpoint responses;
* the aggregation helpers (`group_contributions`, the bucketing step of
  `create_pie_chart`) become list programs, with Python's `sorted` /
  pandas' stable key sort modelled by a stable insertion sort over the
  code-point order on strings, and Python's `set` modelled by `List.dedup`;
* the input validation of `generate_report` becomes a function from a
  configuration value to either a validation error or the effective inputs,
  together with the count of network calls made before the error.
-/

/-! ## Code-point order on strings

Python compares strings lexicographically by code point.  `String.ltb` in
this toolchain does not reduce in the kernel, so we model the comparison
directly on the underlying character lists. -/

/-- Lexicographic comparison of character lists by code point. -/
def charsLe : List Char → List Char → Bool
  | [], _ => true
  | _ :: _, [] => false
  | a :: as, b :: bs =>
    if a.toNat < b.toNat then true
    else if b.toNat < a.toNat then false
    else charsLe as bs

/-- Python's `<=` on strings: lexicographic by code point. -/
def strLe (a b : String) : Bool := charsLe a.data b.data

/-! ## Stable insertion sort

Python's `sorted` and pandas' groupby key ordering are modelled by a stable
insertion sort; only the le-relation on the sort key matters for the claims. -/

/-- Insert `x` into `l`, before the first element `y` with `le x y`. -/
def insertLe {α : Type _} (le : α → α → Bool) (x : α) : List α → List α
  | [] => [x]
  | y :: ys => if le x y then x :: y :: ys else y :: insertLe le x ys

/-- Stable insertion sort with respect to the Boolean relation `le`. -/
def isort {α : Type _} (le : α → α → Bool) : List α → List α
  | [] => []
  | x :: xs => insertLe le x (isort le xs)

/-! ## PagedFetcher: `get_all_pages`

Embedding of `get_all_pages` (`src/generate_report.py`, lines 36-91).  An
HTTP response is abstracted by `RawData`: `truthy` is Python's truthiness of
the decoded JSON (`if not data`), `asList` the record list when the payload
is a JSON array (`results.extend(data)`), and `totalCount`/`items` the
fields consulted on the search endpoint.  The response oracle maps the index
of each issued request (0-based, in issue order) to `none` for a
`requests.exceptions.RequestException` or `some d` for a decoded response.
The function records a trace of requests (with the `page` query parameter
the request was issued with) and sleeps. -/

/-- Abstraction of a decoded HTTP response body. -/
structure RawData (α : Type) where
  truthy : Bool
  asList : List α
  totalCount : Nat
  items : List α
deriving DecidableEq, Repr

/-- Events observable from a `get_all_pages` execution: an HTTP request
carrying the current `page` parameter (`none` when `params` has no `page`
key), an exponential-backoff sleep of the recorded duration in seconds, and
the fixed 1-second rate-limit sleep. -/
inductive Ev where
  | request (pageParam : Option Nat)
  | sleepBackoff (dur : ℚ)
  | sleepPace
deriving DecidableEq, Repr

/-- Result of a `get_all_pages` call: a normal return (either the
accumulated `results` list or, in the `with_pagination=False` case, the
decoded object as-is), a raised `RequestException`, or fuel exhaustion. -/
inductive GOut (α : Type) where
  | ok (r : List α ⊕ RawData α)
  | err
  | diverge
deriving DecidableEq, Repr

/-- One step function for the nested `while True` / `for attempt` loops of
`get_all_pages`.  `phase = none` is the top of the `while` loop (where
`params['page'] = page` is executed when `with_pagination`); `phase = some
attempt` is the body of the retry loop at the given attempt index.
State: accumulated `results`, the `page` counter, the `page` value stored in
`params` (`pp`), and the number of requests issued so far (`reqs`, indexing
the oracle). -/
def runFetch {α : Type} (ocl : Nat → Option (RawData α)) (isSearch withPag : Bool)
    (maxRetries perPage : Nat) (bf : ℚ) :
    Nat → List α → Nat → Option Nat → Nat → Option Nat → List Ev × GOut α
  | 0, _, _, _, _, _ => ([], GOut.diverge)
  | fuel + 1, results, page, pp, reqs, phase =>
    match phase with
    | none =>
      -- top of `while True`: `if with_pagination: params['page'] = page`
      runFetch ocl isSearch withPag maxRetries perPage bf fuel results page
        (if withPag then some page else pp) reqs (some 0)
    | some attempt =>
      if attempt ≥ maxRetries then
        -- `for attempt in range(max_retries)` exhausted without an
        -- exception (reachable via the search-branch `continue`):
        -- fall back to the top of the `while` loop
        runFetch ocl isSearch withPag maxRetries perPage bf fuel results page pp reqs none
      else
        match ocl reqs with
        | none =>
          -- `requests.exceptions.RequestException`
          if attempt < maxRetries - 1 then
            -- backoff sleep, then the per-iteration 1-second sleep,
            -- then the next attempt
            let r := runFetch ocl isSearch withPag maxRetries perPage bf fuel results page pp
              (reqs + 1) (some (attempt + 1))
            (Ev.request pp :: Ev.sleepBackoff (bf * 2 ^ attempt) :: Ev.sleepPace :: r.1, r.2)
          else
            -- `raise e`: no further sleep, the exception propagates
            ([Ev.request pp], GOut.err)
        | some data =>
          if data.truthy = false then
            -- `if not data: return results`
            ([Ev.request pp], GOut.ok (Sum.inl results))
          else if withPag then
            if isSearch then
              -- search endpoint: accumulate `items`, check
              -- `total_count > page * per_page`
              let results2 := results ++ data.items
              if 0 < data.items.length ∧ page * perPage < data.totalCount then
                -- `page += 1; continue` -- continues the *attempt* loop,
                -- skipping the 1-second sleep and leaving `params['page']`
                -- unchanged
                let r := runFetch ocl isSearch withPag maxRetries perPage bf fuel results2
                  (page + 1) pp (reqs + 1) (some (attempt + 1))
                (Ev.request pp :: r.1, r.2)
              else
                ([Ev.request pp], GOut.ok (Sum.inl results2))
            else
              -- `results.extend(data); page += 1; break` -- the `break`
              -- skips the 1-second sleep and returns to the `while` top
              let r := runFetch ocl isSearch withPag maxRetries perPage bf fuel
                (results ++ data.asList) (page + 1) pp (reqs + 1) none
              (Ev.request pp :: r.1, r.2)
          else
            -- `with_pagination=False`: `return data` as-is
            ([Ev.request pp], GOut.ok (Sum.inr data))

/-- `get_all_pages(url, params, max_retries, backoff_factor, with_pagination)`
(`src/generate_report.py`, lines 36-91).  `results = []`, `page = 1`,
`params` initially carries no `page` key.  `isSearch` is the
`url == f"{GITHUB_API_URL}/search/issues"` test; `perPage` is
`params['per_page']`. -/
def get_all_pages {α : Type} (ocl : Nat → Option (RawData α)) (isSearch withPag : Bool)
    (maxRetries perPage : Nat) (bf : ℚ) (fuel : Nat) : List Ev × GOut α :=
  runFetch ocl isSearch withPag maxRetries perPage bf fuel [] 1 none 0 none

/-- Same loop in the older `src/generate_github_contributions_report.py`
(lines 40-76): always paginated, no search-endpoint branch, `params['page']`
set unconditionally at the top of the `while` loop. -/
def runFetchOld {α : Type} (ocl : Nat → Option (RawData α)) (maxRetries : Nat) (bf : ℚ) :
    Nat → List α → Nat → Option Nat → Nat → Option Nat → List Ev × GOut α
  | 0, _, _, _, _, _ => ([], GOut.diverge)
  | fuel + 1, results, page, pp, reqs, phase =>
    match phase with
    | none =>
      -- top of `while True`: `params['page'] = page`
      runFetchOld ocl maxRetries bf fuel results page (some page) reqs (some 0)
    | some attempt =>
      if attempt ≥ maxRetries then
        runFetchOld ocl maxRetries bf fuel results page pp reqs none
      else
        match ocl reqs with
        | none =>
          if attempt < maxRetries - 1 then
            let r := runFetchOld ocl maxRetries bf fuel results page pp (reqs + 1)
              (some (attempt + 1))
            (Ev.request pp :: Ev.sleepBackoff (bf * 2 ^ attempt) :: Ev.sleepPace :: r.1, r.2)
          else
            ([Ev.request pp], GOut.err)
        | some data =>
          if data.truthy = false then
            ([Ev.request pp], GOut.ok (Sum.inl results))
          else
            -- `results.extend(data); page += 1; break`
            let r := runFetchOld ocl maxRetries bf fuel (results ++ data.asList) (page + 1)
              pp (reqs + 1) none
            (Ev.request pp :: r.1, r.2)

/-- `get_all_pages` of the older script (lines 40-76). -/
def get_all_pages_old {α : Type} (ocl : Nat → Option (RawData α)) (maxRetries : Nat)
    (bf : ℚ) (fuel : Nat) : List Ev × GOut α :=
  runFetchOld ocl maxRetries bf fuel [] 1 none 0 none

/-- Checks that in a trace the 1-second rate-limit sleep and the backoff
sleep occur only as an adjacent pair `sleepBackoff; sleepPace` (the pattern
emitted by a failed non-final attempt), and nowhere else. -/
def pacingOk : List Ev → Bool
  | [] => true
  | Ev.sleepBackoff _ :: Ev.sleepPace :: rest => pacingOk rest
  | Ev.sleepBackoff _ :: _ => false
  | Ev.sleepPace :: _ => false
  | Ev.request _ :: rest => pacingOk rest

/-! ### Concrete response oracles for the fetch scenarios -/

/-- First page of the three-page scenario: 100 records. -/
def pageOne : List Nat := List.range 100

/-- Second page of the three-page scenario: 100 further records. -/
def pageTwo : List Nat := (List.range 100).map (fun n => 100 + n)

/-- Third page of the three-page scenario: 37 further records. -/
def pageThree : List Nat := (List.range 37).map (fun n => 200 + n)

/-- Three-page source (sizes 100, 100, 37); every later page is empty. -/
def oclThreePages : Nat → Option (RawData Nat) := fun n =>
  if n = 0 then some ⟨true, pageOne, 0, []⟩
  else if n = 1 then some ⟨true, pageTwo, 0, []⟩
  else if n = 2 then some ⟨true, pageThree, 0, []⟩
  else some ⟨false, [], 0, []⟩

/-- One-page source: a single record on page 1, every later page empty. -/
def oclOnePage : Nat → Option (RawData Nat) := fun n =>
  if n = 0 then some ⟨true, [5], 0, []⟩ else some ⟨false, [], 0, []⟩

/-- Source whose first two requests fail and whose third returns `d`. -/
def oclFailTwice (d : RawData Nat) : Nat → Option (RawData Nat) := fun n =>
  if n < 2 then none else some d

/-- Source all of whose requests fail. -/
def oclAllFail : Nat → Option (RawData Nat) := fun _ => none

/-- Search-endpoint source: request 0 succeeds with one item and a large
`total_count`, request 1 fails, request 2 would succeed with an empty
payload. -/
def oclSearchThenFail : Nat → Option (RawData Nat) := fun n =>
  if n = 0 then some ⟨true, [], 1000, [7]⟩
  else if n = 1 then none
  else some ⟨false, [], 0, []⟩

/-- Source returning a falsy decoded object (e.g. `{}`) on every request. -/
def oclEmptyObject : Nat → Option (RawData Nat) := fun _ => some ⟨false, [], 0, []⟩

/-! ## ContributionCollector: `process_github_data`

Embedding of `process_github_data` (`src/generate_report.py`, lines
224-314).  The network is abstracted by `GithubEnv`: pure functions giving,
per endpoint, the already-fetched data that the Python code obtains via
`get_user_info`, `get_repo_info`, `get_top_contributors`,
`get_pull_requests` and `get_commits`.  The `since` date of `get_commits`
is fixed per run (the ISO-formatted `start_date`), so it is absorbed into
the environment.  JSON `null` and an absent key both become `none`. -/

/-- Fields of a `/users/{user}` response consulted by the code. -/
structure UserInfo where
  name : Option String
  avatar_url : Option String
  html_url : Option String
deriving DecidableEq, Repr

/-- Fields of a `/repos/{repo}` response consulted by the code.  (The
`full_name` entry stored in `repo_info_dict` is never read afterwards and
is omitted.) -/
structure RepoInfo where
  description : Option String
  html_url : Option String
  owner_avatar_url : Option String
deriving DecidableEq, Repr

/-- A contributor entry: only the `login` field is consulted. -/
structure Contributor where
  login : String
deriving DecidableEq, Repr

/-- A pull-request entry: only `pr["user"]["login"]` and
`pr["created_at"]` are consulted. -/
structure PullReq where
  login : String
  created_at : String
deriving DecidableEq, Repr

/-- A commit entry: the code only counts them. -/
structure Commit where
  sha : String
deriving DecidableEq, Repr

/-- The per-endpoint responses seen by one `process_github_data` run. -/
structure GithubEnv where
  user_info : String → UserInfo
  repo_info : String → RepoInfo
  top_contributors : String → List Contributor
  pull_requests : String → List PullReq
  commits : String → String → List Commit

/-- `top_contributors_rank = {str(c["login"]).lower(): rank for rank, c in
enumerate(top_contributors, start=1)}`: a later duplicate key overwrites an
earlier one. -/
def rankMap (tc : List Contributor) : String → Option Nat :=
  tc.enum.foldl
    (fun m p => fun k => if k = p.2.login.toLower then some (p.1 + 1) else m k)
    (fun _ => none)

/-- Number of pull requests bucketed under `user`: the PRs with
`pr["created_at"] >= start_date` (Python string comparison) whose
`str(pr["user"]["login"]).lower().strip()` equals `user`. -/
def user_prs_count (prs : List PullReq) (start_date user : String) : Nat :=
  (prs.filter (fun pr => pr.login.toLower.trim == user
    && strLe start_date pr.created_at)).length

/-- One row appended to `github_data` (`src/generate_report.py`, lines
301-309). -/
structure ContributionRecord where
  projectKey : String
  repository : String
  repoUrl : Option String
  repoDescription : Option String
  repoAvatar : Option String
  user : String
  userAvatar : Option String
  userUrl : Option String
  commits : Nat
  prs : Nat
  rank : Int
  overall : Nat
deriving DecidableEq, Repr

/-- `process_github_data(start_date, users, project_to_repo_dict)`
(`src/generate_report.py`, lines 224-314).  The Python dict preserves
insertion order, so `project_to_repo_dict` is an association list. -/
def process_github_data (env : GithubEnv) (start_date : String) (users : List String)
    (project_to_repo_dict : List (String × List String)) : List ContributionRecord :=
  project_to_repo_dict.flatMap (fun pk_repos =>
    pk_repos.2.flatMap (fun repo =>
      let tc := env.top_contributors repo
      let prs := env.pull_requests repo
      users.map (fun user =>
        let commit_count := (env.commits user repo).length
        let pr_count := user_prs_count prs start_date user
        let ui := env.user_info user
        let ri := env.repo_info repo
        let uname := ui.name.getD user
        { projectKey := pk_repos.1
          repository := repo
          repoUrl := ri.html_url
          repoDescription := ri.description
          repoAvatar := ri.owner_avatar_url
          user := if uname = "" then user else uname
          userAvatar := ui.avatar_url
          userUrl := ui.html_url
          commits := commit_count
          prs := pr_count
          rank := match rankMap tc user with
            | some n => (n : Int)
            | none => -1
          overall := commit_count + pr_count })))

/-- One row of the older script's `github_data`
(`src/generate_github_contributions_report.py`, lines 186-193). -/
structure OldContributionRecord where
  projectName : String
  repository : String
  user : String
  commits : Nat
  prs : Nat
  overall : Nat
deriving DecidableEq, Repr

/-- The endpoints consulted by the older script's `process_github_data`. -/
structure OldGithubEnv where
  pull_requests : String → List PullReq
  commits : String → String → List Commit

/-- `process_github_data` of the older script (lines 147-198). -/
def process_github_data_old (env : OldGithubEnv) (start_date : String) (users : List String)
    (project_to_repo_dict : List (String × List String)) : List OldContributionRecord :=
  project_to_repo_dict.flatMap (fun pk_repos =>
    pk_repos.2.flatMap (fun repo =>
      let prs := env.pull_requests repo
      users.map (fun user =>
        let commit_count := (env.commits user repo).length
        let pr_count := user_prs_count prs start_date user
        { projectName := pk_repos.1
          repository := repo
          user := user
          commits := commit_count
          prs := pr_count
          overall := commit_count + pr_count })))

/-- Environment in which every endpoint returns nothing. -/
def envEmpty : GithubEnv where
  user_info := fun _ => ⟨none, none, none⟩
  repo_info := fun _ => ⟨none, none, none⟩
  top_contributors := fun _ => []
  pull_requests := fun _ => []
  commits := fun _ _ => []

/-- Old-script environment in which every endpoint returns nothing. -/
def envEmptyOld : OldGithubEnv where
  pull_requests := fun _ => []
  commits := fun _ _ => []

/-! ## Aggregator: the rollup listings of `group_contributions`

Embedding of the `Repositories`/`Users` columns built by
`group_contributions` (`src/generate_report.py`, lines 357-385): per group,
`list(set(zip(...)))` followed by `sorted(..., key=lambda y: y[0])`. -/

/-- `sorted(list(set(l)), key=lambda y: y[0])`. -/
def sortedDedupByFst {β : Type _} [DecidableEq β] (l : List (String × β)) :
    List (String × β) :=
  isort (fun a b => strLe a.1 b.1) l.dedup

/-- The `Repositories` cell of the user rollup row for user `u`:
`(Repository, Repository URL, Repository Avatar)` tuples of the user's
records, deduplicated and sorted by repository name. -/
def userRepositories (records : List ContributionRecord) (u : String) :
    List (String × Option String × Option String) :=
  sortedDedupByFst ((records.filter (fun r => r.user == u)).map
    (fun r => (r.repository, r.repoUrl, r.repoAvatar)))

/-- The `Repositories` cell of the project rollup row for key `k`. -/
def projectRepositories (records : List ContributionRecord) (k : String) :
    List (String × Option String × Option String) :=
  sortedDedupByFst ((records.filter (fun r => r.projectKey == k)).map
    (fun r => (r.repository, r.repoUrl, r.repoAvatar)))

/-- The `Users` cell of the project rollup row for key `k`:
`(User, User URL, User Avatar)` tuples. -/
def projectUsers (records : List ContributionRecord) (k : String) :
    List (String × Option String × Option String) :=
  sortedDedupByFst ((records.filter (fun r => r.projectKey == k)).map
    (fun r => (r.user, r.userUrl, r.userAvatar)))

/-! ## Proportional bucketing in `create_pie_chart`

Embedding of the data transformation of `create_pie_chart`
(`src/generate_report.py`, lines 402-425): group the input rows by the
chosen field summing `Commits` and `Pull Requests (Open)` (pandas sorts the
group keys ascending), add `Overall Contribution`, relabel the groups below
the percentage threshold to `Other` (when `percentage != -1`), regroup, and
sort the resulting series descending by value. -/

/-- The sorted distinct group keys of a grouped table. -/
def groupLabels (rows : List (String × Nat × Nat)) : List String :=
  isort strLe (rows.map (fun r => r.1)).dedup

/-- `df.groupby(field)[['Commits', 'Pull Requests (Open)']].sum()`. -/
def pieGrouped (rows : List (String × Nat × Nat)) : List (String × Nat × Nat) :=
  (groupLabels rows).map (fun l =>
    (l, ((rows.filter (fun r => r.1 == l)).map (fun r => r.2.1)).sum,
        ((rows.filter (fun r => r.1 == l)).map (fun r => r.2.2)).sum))

/-- The `(label, Overall Contribution)` column after
`df_copy['Overall Contribution'] = df_copy['Commits'] + df_copy['Pull Requests (Open)']`. -/
def pieOverall (rows : List (String × Nat × Nat)) : List (String × Nat) :=
  (pieGrouped rows).map (fun g => (g.1, g.2.1 + g.2.2))

/-- `df_copy['Overall Contribution'].max()` (the column is non-empty in
every use; on an empty column the fold returns 0, and no row can be below
the resulting threshold, matching pandas' NaN comparison semantics). -/
def maxNat (l : List Nat) : Nat := l.foldl max 0

/-- The comparison `v < max * percentage / 100`, carried out exactly over
the rationals but encoded as the equivalent integer cross-multiplication so
that it evaluates in the kernel; `belowThreshold_iff` below proves the
equivalence with the rational form. -/
def belowThreshold (v maxv : Nat) (p : ℤ) : Bool :=
  100 * (v : ℤ) < (maxv : ℤ) * p

/-- `less_than_threshold`: the labels whose overall contribution is
strictly below `max * percentage / 100`. -/
def pieLessThan (ov : List (String × Nat)) (p : ℤ) : List String :=
  (ov.filter (fun lp => belowThreshold lp.2 (maxNat (ov.map (fun x => x.2))) p)).map
    (fun lp => lp.1)

/-- `df_copy.loc[df_copy[field].isin(less_than_threshold), field] = 'Other'`,
guarded by `if percentage != -1`. -/
def pieRelabeled (ov : List (String × Nat)) (p : ℤ) : List (String × Nat) :=
  if p ≠ -1 then
    ov.map (fun lp => if lp.1 ∈ pieLessThan ov p then (("Other" : String), lp.2) else lp)
  else ov

/-- `df_copy.groupby(field)['Overall Contribution'].sum()` after the
relabeling: keys ascending, values summed per key. -/
def pieRegrouped (relabeled : List (String × Nat)) : List (String × Nat) :=
  (isort strLe (relabeled.map (fun lp => lp.1)).dedup).map
    (fun l => (l, ((relabeled.filter (fun lp => lp.1 == l)).map (fun lp => lp.2)).sum))

/-- `value_counts = ... .sort_values(ascending=False)`: the final buckets,
sorted descending by contribution. -/
def pieValueCounts (rows : List (String × Nat × Nat)) (p : ℤ) : List (String × Nat) :=
  isort (fun a b => decide (b.2 ≤ a.2)) (pieRegrouped (pieRelabeled (pieOverall rows) p))

/-- `total = value_counts.sum()`. -/
def pieTotal (rows : List (String × Nat × Nat)) (p : ℤ) : Nat :=
  ((pieValueCounts rows p).map (fun lp => lp.2)).sum

/-! ## `generate_report`: input validation and the discovery path

Embedding of the input handling of `generate_report`
(`src/generate_report.py`, lines 642-682): extract `start_date`, `users`
and `project_to_repo_dict` from the configuration; when the dict is empty,
discover repositories per user over the network
(`get_repositories_contributed_to`, one paginated fetch per user); then
validate the three required fields, printing the usage hint
(`print_input_json_format`) before each `ValueError`. -/

/-- The configuration read from the input JSON file (`none` = key absent or
`null`). -/
structure GithubConf where
  start_date : Option String
  users : List String
  project_to_repo_dict : List (String × List String)

/-- The three `ValueError`s of the validation block. -/
inductive ConfigError where
  | missingStartDate
  | missingUsers
  | missingRepos
deriving DecidableEq, Repr

/-- `project_to_repo_dict[repo] = [repo]`: Python dict assignment preserves
the position of an existing key and appends a new one. -/
def dictInsert (d : List (String × List String)) (k : String) (v : List String) :
    List (String × List String) :=
  if d.any (fun kv => kv.1 == k) then d.map (fun kv => if kv.1 == k then (k, v) else kv)
  else d ++ [(k, v)]

/-- The discovery loop: `for user in users: for repo in
get_repositories_contributed_to(user): project_to_repo_dict[repo] = [repo]`.
`discover` abstracts the network result of
`get_repositories_contributed_to`. -/
def discoveredDict (users : List String) (discover : String → List String) :
    List (String × List String) :=
  users.foldl (fun d user => (discover user).foldl (fun d2 repo => dictInsert d2 repo [repo]) d) []

/-- Input handling of `generate_report`: returns the number of network
fetch calls made (one `get_repositories_contributed_to` call per user when
discovery runs; each such call issues at least one HTTP request), whether
the usage hint was printed, and either the raised `ValueError` or the
effective `(start_date, lower-cased users, project_to_repo_dict)` handed to
`process_github_data`.  Python's `if not start_date` is falsy for a missing
key, `null`, and the empty string. -/
def generate_report_validate (conf : GithubConf) (discover : String → List String) :
    Nat × Bool × Except ConfigError (String × List String × List (String × List String)) :=
  let d0 := conf.project_to_repo_dict
  let runDiscovery := d0.isEmpty
  let d := if runDiscovery then discoveredDict conf.users discover else d0
  let netCalls := if runDiscovery then conf.users.length else 0
  match conf.start_date with
  | none => (netCalls, true, Except.error ConfigError.missingStartDate)
  | some sd =>
    if sd = "" then (netCalls, true, Except.error ConfigError.missingStartDate)
    else if conf.users.isEmpty then (netCalls, true, Except.error ConfigError.missingUsers)
    else if d.isEmpty then (netCalls, true, Except.error ConfigError.missingRepos)
    else (netCalls, false, Except.ok (sd, conf.users.map (fun u => u.toLower.trim), d))

/-! ### Concrete sample data for the witnesses -/

/-- The single record produced by `process_github_data` over `envEmpty`
with one user, one project and one repository. -/
def sampleRecord : ContributionRecord :=
  { projectKey := ("P1"), repository := ("o/r1"), repoUrl := none,
    repoDescription := none, repoAvatar := none, user := ("alice"),
    userAvatar := none, userUrl := none, commits := 0, prs := 0,
    rank := -1, overall := 0 }

/-- The corresponding record of the older script. -/
def sampleRecordOld : OldContributionRecord :=
  { projectName := ("P1"), repository := ("o/r1"), user := ("alice"),
    commits := 0, prs := 0, overall := 0 }

/-- A record of user `alice` touching repository `o/r` under project `P1`. -/
def recTwoProj1 : ContributionRecord :=
  { projectKey := ("P1"), repository := ("o/r"), repoUrl := some ("u"),
    repoDescription := none, repoAvatar := some ("a"), user := ("alice"),
    userAvatar := none, userUrl := none, commits := 1, prs := 0,
    rank := -1, overall := 1 }

/-- The same user and repository under a different project key `P2`. -/
def recTwoProj2 : ContributionRecord :=
  { projectKey := ("P2"), repository := ("o/r"), repoUrl := some ("u"),
    repoDescription := none, repoAvatar := some ("a"), user := ("alice"),
    userAvatar := none, userUrl := none, commits := 0, prs := 2,
    rank := -1, overall := 2 }

/-- A configuration with a supplied project-to-repository mapping but no
start date. -/
def confWithDict : GithubConf :=
  { start_date := none, users := [("alice")],
    project_to_repo_dict := [(("P1"), [("o/r1")])] }

/-- A discovery function that finds no repositories. -/
def discoverNothing : String → List String := fun _ => []

/-! ## Properties of the string order and of the sort -/

theorem charsLe_total (a b : List Char) : charsLe a b = true ∨ charsLe b a = true := by
  induction a generalizing b with
  | nil => left; rfl
  | cons x xs ih =>
    cases b with
    | nil => right; rfl
    | cons y ys =>
      rcases Nat.lt_trichotomy x.toNat y.toNat with h | h | h
      · left; simp [charsLe, h]
      · rcases ih ys with h2 | h2
        · left; simp [charsLe, h, h2]
        · right; simp [charsLe, h.symm, h2]
      · right; simp [charsLe, h]

theorem charsLe_trans (a b c : List Char) (h1 : charsLe a b = true)
    (h2 : charsLe b c = true) : charsLe a c = true := by
  induction a generalizing b c with
  | nil => rfl
  | cons x xs ih =>
    cases b with
    | nil => simp [charsLe] at h1
    | cons y ys =>
      cases c with
      | nil => simp [charsLe] at h2
      | cons z zs =>
        simp only [charsLe] at h1 h2 ⊢
        by_cases hxy : x.toNat < y.toNat
        · simp only [hxy, if_true] at h1
          by_cases hyz : y.toNat < z.toNat
          · simp [Nat.lt_trans hxy hyz]
          · simp only [hyz, if_false] at h2
            by_cases hzy : z.toNat < y.toNat
            · simp [hzy, if_true] at h2
            · have : y.toNat = z.toNat := Nat.le_antisymm (Nat.le_of_not_lt hzy) (Nat.le_of_not_lt hyz)
              simp [this ▸ hxy]
        · simp only [hxy, if_false] at h1
          by_cases hyx : y.toNat < x.toNat
          · simp [hyx, if_true] at h1
          · have hxy' : x.toNat = y.toNat := Nat.le_antisymm (Nat.le_of_not_lt hyx) (Nat.le_of_not_lt hxy)
            simp only [hyx, if_false] at h1
            by_cases hyz : y.toNat < z.toNat
            · simp [hxy' ▸ hyz]
            · simp only [hyz, if_false] at h2
              by_cases hzy : z.toNat < y.toNat
              · simp [hzy, if_true] at h2
              · have hyz' : y.toNat = z.toNat := Nat.le_antisymm (Nat.le_of_not_lt hzy) (Nat.le_of_not_lt hyz)
                rw [if_neg hzy] at h2
                simp [hxy'.trans hyz', ih ys zs h1 h2]

theorem strLe_total (a b : String) : strLe a b = true ∨ strLe b a = true :=
  charsLe_total a.data b.data

theorem strLe_trans (a b c : String) (h1 : strLe a b = true) (h2 : strLe b c = true) :
    strLe a c = true :=
  charsLe_trans a.data b.data c.data h1 h2


theorem insertLe_perm {α : Type _} (le : α → α → Bool) (x : α) (l : List α) :
    (insertLe le x l).Perm (x :: l) := by
  induction l with
  | nil => exact List.Perm.refl _
  | cons y ys ih =>
    simp only [insertLe]
    by_cases h : le x y
    · simp [h]
    · simp only [h, if_false]
      exact (ih.cons y).trans (List.Perm.swap x y ys)

theorem isort_perm {α : Type _} (le : α → α → Bool) (l : List α) :
    (isort le l).Perm l := by
  induction l with
  | nil => exact List.Perm.refl _
  | cons x xs ih =>
    exact (insertLe_perm le x (isort le xs)).trans (ih.cons x)

theorem mem_isort {α : Type _} (le : α → α → Bool) (l : List α) (a : α) :
    a ∈ isort le l ↔ a ∈ l :=
  (isort_perm le l).mem_iff

theorem insertLe_sorted {α : Type _} (le : α → α → Bool)
    (htrans : ∀ a b c, le a b = true → le b c = true → le a c = true)
    (htot : ∀ a b, le a b = true ∨ le b a = true)
    (x : α) (l : List α) (hs : l.Pairwise (fun a b => le a b = true)) :
    (insertLe le x l).Pairwise (fun a b => le a b = true) := by
  induction l with
  | nil => simp [insertLe]
  | cons y ys ih =>
    rcases hs with _ | ⟨hy, hys⟩
    simp only [insertLe]
    by_cases h : le x y
    · rw [if_pos h]
      refine List.Pairwise.cons ?_ (List.Pairwise.cons hy hys)
      intro z hz
      rcases List.mem_cons.mp hz with rfl | hz
      · exact h
      · exact htrans x y z h (hy z hz)
    · rw [if_neg h]
      refine List.Pairwise.cons ?_ (ih hys)
      intro z hz
      have hz' : z ∈ x :: ys := (insertLe_perm le x ys).mem_iff.mp hz
      rcases List.mem_cons.mp hz' with rfl | hz2
      · rcases htot z y with h' | h'
        · exact absurd h' h
        · exact h'
      · exact hy z hz2

theorem isort_sorted {α : Type _} (le : α → α → Bool)
    (htrans : ∀ a b c, le a b = true → le b c = true → le a c = true)
    (htot : ∀ a b, le a b = true ∨ le b a = true) (l : List α) :
    (isort le l).Pairwise (fun a b => le a b = true) := by
  induction l with
  | nil => exact List.Pairwise.nil
  | cons x xs ih => exact insertLe_sorted le htrans htot x (isort le xs) ih

theorem isort_nodup {α : Type _} (le : α → α → Bool) (l : List α) (h : l.Nodup) :
    (isort le l).Nodup :=
  ((isort_perm le l).symm).nodup h


/-! ## Pacing: where the 1-second sleep can occur -/

theorem pacingOk_runFetch {α : Type} (ocl : Nat → Option (RawData α)) (isSearch withPag : Bool)
    (maxRetries perPage : Nat) (bf : ℚ) (fuel : Nat) :
    ∀ results page pp reqs phase,
      pacingOk (runFetch ocl isSearch withPag maxRetries perPage bf
        fuel results page pp reqs phase).1 = true := by
  induction fuel with
  | zero => intro results page pp reqs phase; rfl
  | succ n ih =>
    intro results page pp reqs phase
    cases phase with
    | none => exact ih results page (if withPag then some page else pp) reqs (some 0)
    | some a =>
      simp only [runFetch]
      by_cases ha : a ≥ maxRetries
      · rw [if_pos ha]; exact ih results page pp reqs none
      · rw [if_neg ha]
        cases hocl : ocl reqs with
        | none =>
          by_cases hlt : a < maxRetries - 1
          · rw [if_pos hlt]
            simp only [pacingOk]
            exact ih results page pp (reqs + 1) (some (a + 1))
          · rw [if_neg hlt]; rfl
        | some data =>
          dsimp only
          by_cases htr : data.truthy = false
          · rw [if_pos htr]; rfl
          · rw [if_neg htr]
            cases withPag with
            | false => rfl
            | true =>
              simp only [if_true]
              cases isSearch with
              | false =>
                simp only [Bool.false_eq_true, if_false, pacingOk]
                exact ih (results ++ data.asList) (page + 1) pp (reqs + 1) none
              | true =>
                simp only [if_true]
                by_cases hmore : 0 < data.items.length ∧ page * perPage < data.totalCount
                · rw [if_pos hmore]
                  simp only [pacingOk]
                  exact ih (results ++ data.items) (page + 1) pp (reqs + 1) (some (a + 1))
                · rw [if_neg hmore]; rfl

theorem pacingOk_runFetchOld {α : Type} (ocl : Nat → Option (RawData α))
    (maxRetries : Nat) (bf : ℚ) (fuel : Nat) :
    ∀ results page pp reqs phase,
      pacingOk (runFetchOld ocl maxRetries bf fuel results page pp reqs phase).1 = true := by
  induction fuel with
  | zero => intro results page pp reqs phase; rfl
  | succ n ih =>
    intro results page pp reqs phase
    cases phase with
    | none => exact ih results page (some page) reqs (some 0)
    | some a =>
      simp only [runFetchOld]
      by_cases ha : a ≥ maxRetries
      · rw [if_pos ha]; exact ih results page pp reqs none
      · rw [if_neg ha]
        cases hocl : ocl reqs with
        | none =>
          by_cases hlt : a < maxRetries - 1
          · rw [if_pos hlt]
            simp only [pacingOk]
            exact ih results page pp (reqs + 1) (some (a + 1))
          · rw [if_neg hlt]; rfl
        | some data =>
          dsimp only
          by_cases htr : data.truthy = false
          · rw [if_pos htr]; rfl
          · rw [if_neg htr]
            simp only [pacingOk]
            exact ih (results ++ data.asList) (page + 1) pp (reqs + 1) none

/-! ## Retry budget: an error needs `maxRetries` consecutive failures
(outside the search branch) -/

theorem runFetch_err_consecutive {α : Type} (ocl : Nat → Option (RawData α))
    (isSearch withPag : Bool) (maxRetries perPage : Nat) (bf : ℚ)
    (hmode : isSearch = false ∨ withPag = false) (fuel : Nat) :
    ∀ results page pp reqs phase,
      (∀ a, phase = some a → ∃ base, reqs = base + a ∧ ∀ j < a, ocl (base + j) = none) →
      (runFetch ocl isSearch withPag maxRetries perPage bf
        fuel results page pp reqs phase).2 = GOut.err →
      ∃ k, ∀ i < maxRetries, ocl (k + i) = none := by
  induction fuel with
  | zero => intro results page pp reqs phase _ herr; exact absurd herr (by simp [runFetch])
  | succ n ih =>
    intro results page pp reqs phase hinv herr
    cases phase with
    | none =>
      refine ih results page (if withPag then some page else pp) reqs (some 0) ?_ herr
      intro a ha
      obtain rfl : a = 0 := by injection ha with h; exact h.symm
      exact ⟨reqs, rfl, by omega⟩
    | some a =>
      simp only [runFetch] at herr
      by_cases ha : a ≥ maxRetries
      · rw [if_pos ha] at herr
        exact ih results page pp reqs none (by intro a h; cases h) herr
      · rw [if_neg ha] at herr
        obtain ⟨base, hbase, hprev⟩ := hinv a rfl
        cases hocl : ocl reqs with
        | none =>
          rw [hocl] at herr
          by_cases hlt : a < maxRetries - 1
          · rw [if_pos hlt] at herr
            dsimp only at herr
            refine ih results page pp (reqs + 1) (some (a + 1)) ?_ herr
            intro a' ha'
            obtain rfl : a' = a + 1 := by injection ha' with h; exact h.symm
            refine ⟨base, by omega, ?_⟩
            intro j hj
            rcases Nat.lt_succ_iff_lt_or_eq.mp hj with hj' | rfl
            · exact hprev j hj'
            · rw [← hbase]; exact hocl
          · refine ⟨base, ?_⟩
            intro i hi
            have hm : maxRetries = a + 1 := by omega
            rcases Nat.lt_succ_iff_lt_or_eq.mp (hm ▸ hi) with hi' | rfl
            · exact hprev i hi'
            · rw [← hbase]; exact hocl
        | some data =>
          rw [hocl] at herr
          dsimp only at herr
          by_cases htr : data.truthy = false
          · rw [if_pos htr] at herr; cases herr
          · rw [if_neg htr] at herr
            by_cases hw : withPag = true
            · have hs : isSearch = false := by
                rcases hmode with h | h
                · exact h
                · rw [h] at hw; cases hw
              subst hw
              subst hs
              simp only [if_true, Bool.false_eq_true, if_false] at herr
              exact ih (results ++ data.asList) (page + 1) pp (reqs + 1) none
                (by intro a h; cases h) herr
            · rw [Bool.not_eq_true] at hw
              subst hw
              simp only [Bool.false_eq_true, if_false] at herr
              cases herr

/-! ## Claims about the fetch layer -/

/-- C2 (counterexample): over the three-page source (100, 100, 37, then
empty pages) in page-number mode, `get_all_pages` does issue a request for
page 4 — the empty fourth page is the termination signal — contradicting
the claim that a 4th page request is never issued.  The returned records
are nevertheless exactly the 237 records in page order. -/
theorem fourth_page_request_issued :
    Ev.request (some 4) ∈ (get_all_pages oclThreePages false true 3 100 (3/10) 20).1 ∧
    (get_all_pages oclThreePages false true 3 100 (3/10) 20).2 =
      GOut.ok (Sum.inl (pageOne ++ pageTwo ++ pageThree)) := by
  constructor
  · have h : (get_all_pages oclThreePages false true 3 100 (3/10) 20).1 =
        [Ev.request (some 1), Ev.request (some 2), Ev.request (some 3),
          Ev.request (some 4)] := by rfl
    rw [h]
    simp
  · rfl

set_option maxRecDepth 100000 in
/-- C2 (amended): a page-number-mode fetch over the three-page source
returns exactly 237 records concatenated in page-request order; requests are
issued for pages 1, 2, 3 and 4 — the 4th returns the empty page that
terminates the loop — and no 5th page request is issued.  The same holds
for the older script's `get_all_pages`. -/
theorem three_page_fetch_returns_237 (bf : ℚ) (perPage : Nat) :
    get_all_pages oclThreePages false true 3 perPage bf 20 =
      ([Ev.request (some 1), Ev.request (some 2), Ev.request (some 3), Ev.request (some 4)],
        GOut.ok (Sum.inl (pageOne ++ pageTwo ++ pageThree))) ∧
    pageOne ++ pageTwo ++ pageThree = List.range 237 ∧
    get_all_pages_old oclThreePages 3 bf 20 =
      ([Ev.request (some 1), Ev.request (some 2), Ev.request (some 3), Ev.request (some 4)],
        GOut.ok (Sum.inl (pageOne ++ pageTwo ++ pageThree))) :=
  ⟨rfl, rfl, rfl⟩

/-- C3: with `max_retries = 3`, a request that fails twice and then succeeds
returns the successful payload after exactly two backoff sleeps of
`backoff_factor * 2^attempt` seconds (each followed by the fixed 1-second
sleep); a request that fails three times raises the error after exactly
three attempts, with no 4th attempt. -/
theorem retry_backoff_behavior (bf : ℚ) (d : RawData Nat) (hd : d.truthy = true) :
    get_all_pages (oclFailTwice d) false false 3 100 bf 5 =
      ([Ev.request none, Ev.sleepBackoff (bf * 2 ^ 0), Ev.sleepPace,
        Ev.request none, Ev.sleepBackoff (bf * 2 ^ 1), Ev.sleepPace,
        Ev.request none], GOut.ok (Sum.inr d)) ∧
    get_all_pages oclAllFail false false 3 100 bf 5 =
      ([Ev.request none, Ev.sleepBackoff (bf * 2 ^ 0), Ev.sleepPace,
        Ev.request none, Ev.sleepBackoff (bf * 2 ^ 1), Ev.sleepPace,
        Ev.request none], GOut.err) := by
  constructor
  · obtain ⟨t, al, tc, it⟩ := d
    simp only [RawData.truthy] at hd
    subst hd
    rfl
  · rfl

/-- Witness for C3 at `backoff_factor = 3/10` and a concrete truthy payload. -/
theorem retry_backoff_behavior_witness :
    (RawData.mk true ([] : List Nat) 0 []).truthy = true ∧
    (get_all_pages (oclFailTwice (RawData.mk true ([] : List Nat) 0 [])) false false 3 100 (3/10) 5 =
      ([Ev.request none, Ev.sleepBackoff (3/10 * 2 ^ 0), Ev.sleepPace,
        Ev.request none, Ev.sleepBackoff (3/10 * 2 ^ 1), Ev.sleepPace,
        Ev.request none], GOut.ok (Sum.inr (RawData.mk true ([] : List Nat) 0 []))) ∧
    get_all_pages oclAllFail false false 3 100 (3/10) 5 =
      ([Ev.request none, Ev.sleepBackoff (3/10 * 2 ^ 0), Ev.sleepPace,
        Ev.request none, Ev.sleepBackoff (3/10 * 2 ^ 1), Ev.sleepPace,
        Ev.request none], GOut.err)) :=
  ⟨rfl, retry_backoff_behavior (3/10) (RawData.mk true ([] : List Nat) 0 []) rfl⟩

/-- C4 (counterexample): a successful page request is *not* followed by the
1-second pacing delay before the next request: over a one-page source the
trace is request 1 directly followed by request 2, with no `sleepPace`
anywhere, because the success path `break`s (or `return`s) past the
`time.sleep(1)` at the bottom of the retry loop. -/
theorem success_not_followed_by_pace :
    get_all_pages oclOnePage false true 3 100 (3/10) 10 =
      ([Ev.request (some 1), Ev.request (some 2)], GOut.ok (Sum.inl [5])) ∧
    Ev.sleepPace ∉ (get_all_pages oclOnePage false true 3 100 (3/10) 10).1 :=
  ⟨rfl, by decide⟩

/-- C4 (amended): in every execution of `get_all_pages` (either script), the
1-second pacing sleep occurs only immediately after the exponential-backoff
sleep of a failed non-final attempt, and every such backoff sleep is
immediately followed by the pacing sleep; no pacing delay ever follows a
successful request. -/
theorem pace_sleep_only_after_failed_attempt :
    (∀ (α : Type) (ocl : Nat → Option (RawData α)) (isSearch withPag : Bool)
        (maxRetries perPage fuel : Nat) (bf : ℚ),
      pacingOk (get_all_pages ocl isSearch withPag maxRetries perPage bf fuel).1 = true) ∧
    (∀ (α : Type) (ocl : Nat → Option (RawData α)) (maxRetries fuel : Nat) (bf : ℚ),
      pacingOk (get_all_pages_old ocl maxRetries bf fuel).1 = true) :=
  ⟨fun _ ocl i w m p f bf => pacingOk_runFetch ocl i w m p bf f [] 1 none 0 none,
   fun _ ocl m f bf => pacingOk_runFetchOld ocl m bf f [] 1 none 0 none⟩

/-- C5 (counterexample): in total-count-driven (search) mode the attempt
counter is shared across page fetches.  With `max_retries = 2`, after the
page-1 request succeeds (with a large `total_count`), the following request
gets only the one remaining attempt: its single failure (oracle index 1)
raises the error immediately, although a retry would have succeeded (oracle
index 2 is a success).  The second request is even issued with the stale
page parameter 1. -/
theorem search_mode_shares_retry_budget :
    get_all_pages oclSearchThenFail true true 2 1 (3/10) 10 =
      ([Ev.request (some 1), Ev.request (some 1)], GOut.err) ∧
    oclSearchThenFail 1 = none ∧
    oclSearchThenFail 0 ≠ none ∧ oclSearchThenFail 2 ≠ none :=
  ⟨rfl, rfl, by decide, by decide⟩

/-- C5 (amended): in page-number mode and in the no-pagination mode, each
page's request gets the full retry budget: the call can only raise an error
if some `maxRetries` *consecutive* requests all fail; successes on other
pages never reduce the attempts available.  (In search mode this fails, see
the counterexample.) -/
theorem err_requires_consecutive_failures {α : Type} (ocl : Nat → Option (RawData α))
    (isSearch withPag : Bool) (maxRetries perPage : Nat) (bf : ℚ) (fuel : Nat)
    (hmode : isSearch = false ∨ withPag = false)
    (herr : (get_all_pages ocl isSearch withPag maxRetries perPage bf fuel).2 = GOut.err) :
    ∃ k, ∀ i < maxRetries, ocl (k + i) = none :=
  runFetch_err_consecutive ocl isSearch withPag maxRetries perPage bf hmode fuel
    [] 1 none 0 none (by intro a h; cases h) herr

/-- Witness for C5 (amended): with `max_retries = 1` and an always-failing
source, the call errs and indeed one consecutive failure exists. -/
theorem err_requires_consecutive_failures_witness :
    ((false : Bool) = false ∨ (false : Bool) = false) ∧
    (get_all_pages oclAllFail false false 1 100 (3/10) 3).2 = GOut.err ∧
    ∃ k, ∀ i < 1, oclAllFail (k + i) = none :=
  ⟨Or.inl rfl, rfl,
    err_requires_consecutive_failures oclAllFail false false 1 100 (3/10) 3 (Or.inl rfl) rfl⟩

/-- C6 (counterexample): a `with_pagination=False` call whose decoded
response object is falsy (e.g. `{}`) returns the empty accumulator *list*
`results`, not the decoded object as-is: the `if not data: return results`
branch fires before the `return data` branch. -/
theorem no_pagination_falsy_returns_wrapped_list :
    get_all_pages oclEmptyObject false false 3 100 (3/10) 5 =
      ([Ev.request none], GOut.ok (Sum.inl [])) ∧
    ∀ d : RawData Nat, GOut.ok (Sum.inl ([] : List Nat)) ≠ GOut.ok (Sum.inr d) := by
  refine ⟨rfl, ?_⟩
  intro d h
  injection h with h2
  exact Sum.noConfusion h2

/-- C6 (amended): in a `with_pagination=False` call whose first request
succeeds, exactly one HTTP request is issued (with no `page` parameter); a
truthy decoded object is returned as-is, while a falsy decoded object
yields the empty results list instead. -/
theorem no_pagination_single_request {α : Type} (ocl : Nat → Option (RawData α))
    (isSearch : Bool) (maxRetries perPage : Nat) (bf : ℚ) (fuel : Nat) (d : RawData α)
    (h0 : ocl 0 = some d) (hm : 1 ≤ maxRetries) :
    get_all_pages ocl isSearch false maxRetries perPage bf (fuel + 2) =
      ([Ev.request none],
        if d.truthy = false then GOut.ok (Sum.inl []) else GOut.ok (Sum.inr d)) := by
  simp only [get_all_pages, runFetch]
  rw [if_neg (by omega : ¬ 0 ≥ maxRetries)]
  rw [h0]
  dsimp only
  by_cases htr : d.truthy = false
  · rw [if_pos htr, if_pos htr]
    rfl
  · rw [if_neg htr, if_neg htr]
    rfl

/-- Witness for C6 (amended) at a concrete truthy single-object payload. -/
theorem no_pagination_single_request_witness :
    ((fun _ => some (RawData.mk true ([] : List Nat) 1 [])) : Nat → Option (RawData Nat)) 0 =
        some (RawData.mk true ([] : List Nat) 1 []) ∧
    1 ≤ 3 ∧
    get_all_pages (fun _ => some (RawData.mk true ([] : List Nat) 1 [])) false false 3 100 (3/10) (3 + 2) =
      ([Ev.request none],
        if (RawData.mk true ([] : List Nat) 1 []).truthy = false then GOut.ok (Sum.inl [])
        else GOut.ok (Sum.inr (RawData.mk true ([] : List Nat) 1 []))) :=
  ⟨rfl, by omega,
    no_pagination_single_request (fun _ => some (RawData.mk true ([] : List Nat) 1 []))
      false 3 100 (3/10) 3 (RawData.mk true ([] : List Nat) 1 []) rfl (by omega)⟩

/-! ## Claims about the collector -/

/-- C1: every record emitted by `process_github_data` (in either script)
satisfies `Overall Contribution = Commits + Pull Requests (Open)`. -/
theorem overall_contribution_eq_sum :
    (∀ (env : GithubEnv) (sd : String) (users : List String)
        (dict : List (String × List String)) (r : ContributionRecord),
      r ∈ process_github_data env sd users dict → r.overall = r.commits + r.prs) ∧
    (∀ (env : OldGithubEnv) (sd : String) (users : List String)
        (dict : List (String × List String)) (r : OldContributionRecord),
      r ∈ process_github_data_old env sd users dict → r.overall = r.commits + r.prs) := by
  constructor
  · intro env sd users dict r hr
    simp only [process_github_data, List.mem_flatMap, List.mem_map] at hr
    obtain ⟨pkr, _, repo, _, user, _, rfl⟩ := hr
    rfl
  · intro env sd users dict r hr
    simp only [process_github_data_old, List.mem_flatMap, List.mem_map] at hr
    obtain ⟨pkr, _, repo, _, user, _, rfl⟩ := hr
    rfl

/-- Witness for C1: the record produced for one user, one project and one
repository over the empty environment. -/
theorem overall_contribution_eq_sum_witness :
    (sampleRecord ∈
      process_github_data envEmpty ("2024-01-01") [("alice")] [(("P1"), [("o/r1")])]) ∧
    sampleRecord.overall = sampleRecord.commits + sampleRecord.prs ∧
    (sampleRecordOld ∈
      process_github_data_old envEmptyOld ("2024-01-01") [("alice")] [(("P1"), [("o/r1")])]) ∧
    sampleRecordOld.overall = sampleRecordOld.commits + sampleRecordOld.prs :=
  ⟨by decide,
   overall_contribution_eq_sum.1 envEmpty ("2024-01-01") [("alice")]
     [(("P1"), [("o/r1")])] sampleRecord (by decide),
   by decide,
   overall_contribution_eq_sum.2 envEmptyOld ("2024-01-01") [("alice")]
     [(("P1"), [("o/r1")])] sampleRecordOld (by decide)⟩

/-! ## Claims about `generate_report` input validation -/

theorem generate_report_validate_netCalls (conf : GithubConf) (discover : String → List String) :
    (generate_report_validate conf discover).1 =
      if conf.project_to_repo_dict.isEmpty then conf.users.length else 0 := by
  obtain ⟨sd0, users, dict⟩ := conf
  simp only [generate_report_validate]
  cases sd0 with
  | none => rfl
  | some sd =>
    dsimp only
    split_ifs <;> rfl

theorem generate_report_validate_hint (conf : GithubConf) (discover : String → List String)
    (e : ConfigError) :
    (generate_report_validate conf discover).2.2 = Except.error e →
    (generate_report_validate conf discover).2.1 = true := by
  obtain ⟨sd0, users, dict⟩ := conf
  simp only [generate_report_validate]
  cases sd0 with
  | none => intro _; rfl
  | some sd =>
    dsimp only
    split_ifs <;> intro h
    all_goals first | rfl | exact h.elim

/-- C7 (counterexample): with `start_date` missing, one user and no
`project_to_repo_dict`, the per-user repository discovery performs a
network fetch (one `get_repositories_contributed_to` call, hence at least
one HTTP request) before the validation raises the start-date error — the
abort does not happen before any network call. -/
theorem discovery_network_before_validation :
    generate_report_validate ⟨none, [("alice")], []⟩ (fun _ => [("o/r")]) =
      (1, true, Except.error ConfigError.missingStartDate) ∧ (1 : Nat) ≠ 0 :=
  ⟨rfl, by decide⟩

/-- C7 (amended): every missing-required-field error is reported after
printing the usage hint and aborts the run; when a project-to-repo mapping
is supplied, or when there are no users to discover for, the abort happens
before any network call; but when the mapping is absent and users are
present, the discovery performs one network fetch per user before
validation runs. -/
theorem validation_hint_and_network (conf : GithubConf) (discover : String → List String) :
    (∀ e, (generate_report_validate conf discover).2.2 = Except.error e →
      (generate_report_validate conf discover).2.1 = true) ∧
    (conf.project_to_repo_dict ≠ [] ∨ conf.users = [] →
      (generate_report_validate conf discover).1 = 0) ∧
    (conf.project_to_repo_dict = [] →
      (generate_report_validate conf discover).1 = conf.users.length) := by
  refine ⟨fun e => generate_report_validate_hint conf discover e, ?_, ?_⟩
  · intro h
    rw [generate_report_validate_netCalls]
    rcases h with h | h
    · rw [if_neg]
      simp [List.isEmpty_iff, h]
    · rw [h]
      split <;> rfl
  · intro h
    rw [generate_report_validate_netCalls, h]
    rfl

/-- Witness for C7 (amended): with a supplied mapping and a missing start
date, the hint is printed and no network call is made. -/
theorem validation_hint_and_network_witness :
    ((generate_report_validate confWithDict discoverNothing).2.2 =
      Except.error ConfigError.missingStartDate) ∧
    (generate_report_validate confWithDict discoverNothing).2.1 = true ∧
    confWithDict.project_to_repo_dict ≠ [] ∧
    (generate_report_validate confWithDict discoverNothing).1 = 0 :=
  ⟨rfl,
   (validation_hint_and_network confWithDict discoverNothing).1
     ConfigError.missingStartDate rfl,
   by decide,
   (validation_hint_and_network confWithDict discoverNothing).2.1 (Or.inl (by decide))⟩

/-! ## Claims about the pie-chart bucketing -/

/-- The integer encoding of the threshold comparison agrees with the exact
rational comparison `v < max * percentage / 100`. -/
theorem belowThreshold_iff (v maxv : Nat) (p : ℤ) :
    belowThreshold v maxv p = true ↔ (v : ℚ) < (maxv : ℚ) * (p : ℚ) / 100 := by
  unfold belowThreshold
  rw [decide_eq_true_eq, lt_div_iff₀ (by norm_num : (0 : ℚ) < 100)]
  constructor
  · intro h
    have h2 : ((100 * (v : ℤ) : ℤ) : ℚ) < (((maxv : ℤ) * p : ℤ) : ℚ) := by exact_mod_cast h
    push_cast at h2
    linarith
  · intro h
    have h2 : (100 : ℚ) * (v : ℚ) < (maxv : ℚ) * (p : ℚ) := by linarith
    exact_mod_cast h2

/-- C8: grouped contributions `[100, 40, 5, 2]` (under any split between
commits and open PRs) with threshold `p = 10` (cutoff `= 10`): the groups
with contributions 5 and 2 are relabeled into a single `Other` bucket of
combined value 7, and the recomputed buckets sorted descending by
contribution are `[100, 40, 7]`, summing to 147. -/
theorem pie_bucketing_100_40_5_2 (c1 p1 c2 p2 c3 p3 c4 p4 : Nat)
    (h1 : c1 + p1 = 100) (h2 : c2 + p2 = 40) (h3 : c3 + p3 = 5) (h4 : c4 + p4 = 2) :
    pieValueCounts [(("A"), c1, p1), (("B"), c2, p2), (("C"), c3, p3), (("D"), c4, p4)] 10 =
      [(("A"), 100), (("B"), 40), (("Other"), 7)] ∧
    pieTotal [(("A"), c1, p1), (("B"), c2, p2), (("C"), c3, p3), (("D"), c4, p4)] 10 = 147 := by
  have hov : pieOverall [(("A"), c1, p1), (("B"), c2, p2), (("C"), c3, p3), (("D"), c4, p4)] =
      [(("A"), c1 + p1), (("B"), c2 + p2), (("C"), c3 + p3), (("D"), c4 + p4)] := by rfl
  rw [h1, h2, h3, h4] at hov
  constructor
  · unfold pieValueCounts
    rw [hov]
    decide
  · unfold pieTotal pieValueCounts
    rw [hov]
    decide

/-- Witness for C8 with the whole contribution on the commit side. -/
theorem pie_bucketing_100_40_5_2_witness :
    (100 + 0 = 100) ∧ (40 + 0 = 40) ∧ (5 + 0 = 5) ∧ (2 + 0 = 2) ∧
    (pieValueCounts [(("A"), 100, 0), (("B"), 40, 0), (("C"), 5, 0), (("D"), 2, 0)] 10 =
      [(("A"), 100), (("B"), 40), (("Other"), 7)] ∧
     pieTotal [(("A"), 100, 0), (("B"), 40, 0), (("C"), 5, 0), (("D"), 2, 0)] 10 = 147) :=
  ⟨rfl, rfl, rfl, rfl, pie_bucketing_100_40_5_2 100 0 40 0 5 0 2 0 rfl rfl rfl rfl⟩

/-! ## Claims about the rollup listings -/

theorem strLe_fst_trans {β : Type _} (a b c : String × β)
    (h1 : strLe a.1 b.1 = true) (h2 : strLe b.1 c.1 = true) : strLe a.1 c.1 = true :=
  strLe_trans a.1 b.1 c.1 h1 h2

theorem sortedDedupByFst_nodup {β : Type _} [DecidableEq β] (l : List (String × β)) :
    (sortedDedupByFst l).Nodup :=
  isort_nodup _ _ (List.nodup_dedup l)

theorem sortedDedupByFst_sorted {β : Type _} [DecidableEq β] (l : List (String × β)) :
    (sortedDedupByFst l).Pairwise (fun a b => strLe a.1 b.1 = true) :=
  isort_sorted _ strLe_fst_trans (fun a b => strLe_total a.1 b.1) _

theorem sortedDedupByFst_countP_eq_one {β : Type _} [DecidableEq β]
    (l : List (String × β)) (t : String × β)
    (hmem : t ∈ l) (hall : ∀ x ∈ l, x.1 = t.1 → x = t) :
    (sortedDedupByFst l).countP (fun x => x.1 == t.1) = 1 := by
  unfold sortedDedupByFst
  rw [(isort_perm _ _).countP_eq]
  have hmemd : t ∈ l.dedup := List.mem_dedup.mpr hmem
  have hcongr : ∀ x ∈ l.dedup, ((x.1 == t.1) = true ↔ (decide (x = t)) = true) := by
    intro x hx
    have hx' : x ∈ l := List.mem_dedup.mp hx
    by_cases h : x.1 = t.1
    · have hxt : x = t := hall x hx' h
      subst hxt
      simp
    · have hne : x ≠ t := fun hxt => h (by rw [hxt])
      simp [h, hne]
  rw [List.countP_congr hcongr]
  have hc : (l.dedup).countP (fun x => decide (x = t)) =
      @List.count _ instBEqOfDecidableEq t l.dedup := rfl
  rw [hc]
  exact List.count_eq_one_of_mem (List.nodup_dedup l) hmemd

/-- C9: in the rollups built by `group_contributions`, the `Repositories`
and `Users` tuple lists contain no duplicate tuples and are sorted
ascending by the tuple's first component; and a repository touched by one
user under two different project keys (with the repository metadata
determined by the repository, as `process_github_data` guarantees) appears
exactly once in that user's repository list. -/
theorem rollup_lists_dedup_sorted :
    (∀ (records : List ContributionRecord) (u : String),
      (userRepositories records u).Nodup ∧
      (userRepositories records u).Pairwise (fun a b => strLe a.1 b.1 = true)) ∧
    (∀ (records : List ContributionRecord) (k : String),
      ((projectRepositories records k).Nodup ∧
        (projectRepositories records k).Pairwise (fun a b => strLe a.1 b.1 = true)) ∧
      ((projectUsers records k).Nodup ∧
        (projectUsers records k).Pairwise (fun a b => strLe a.1 b.1 = true))) ∧
    (∀ (records : List ContributionRecord) (u repo : String)
        (url av : Option String) (r1 r2 : ContributionRecord),
      r1 ∈ records → r2 ∈ records → r1.user = u → r2.user = u →
      r1.repository = repo → r2.repository = repo → r1.projectKey ≠ r2.projectKey →
      (∀ r ∈ records, r.user = u → r.repository = repo →
        r.repoUrl = url ∧ r.repoAvatar = av) →
      (userRepositories records u).countP (fun t => t.1 == repo) = 1) := by
  refine ⟨?_, ?_, ?_⟩
  · intro records u
    exact ⟨sortedDedupByFst_nodup _, sortedDedupByFst_sorted _⟩
  · intro records k
    exact ⟨⟨sortedDedupByFst_nodup _, sortedDedupByFst_sorted _⟩,
      ⟨sortedDedupByFst_nodup _, sortedDedupByFst_sorted _⟩⟩
  · intro records u repo url av r1 r2 h1 h2 h1u h2u h1r h2r hpk hfun
    have := sortedDedupByFst_countP_eq_one
      ((records.filter (fun r => r.user == u)).map
        (fun r => (r.repository, r.repoUrl, r.repoAvatar)))
      (repo, url, av) ?_ ?_
    · exact this
    · refine List.mem_map.mpr ⟨r1, ?_, ?_⟩
      · exact List.mem_filter.mpr ⟨h1, by simp [h1u]⟩
      · obtain ⟨hu, ha⟩ := hfun r1 h1 h1u h1r
        rw [h1r, hu, ha]
    · intro x hx hxr
      obtain ⟨r, hr, rfl⟩ := List.mem_map.mp hx
      obtain ⟨hrmem, hru⟩ := List.mem_filter.mp hr
      have hru' : r.user = u := by simpa using hru
      have hrr : r.repository = repo := by simpa using hxr
      obtain ⟨hu, ha⟩ := hfun r hrmem hru' hrr
      rw [hrr, hu, ha]

/-- Witness for C9: user `alice` touches `o/r` under the two project keys
`P1` and `P2`; the repository appears exactly once in her repository
list. -/
theorem rollup_lists_dedup_sorted_witness :
    recTwoProj1 ∈ [recTwoProj1, recTwoProj2] ∧
    recTwoProj2 ∈ [recTwoProj1, recTwoProj2] ∧
    recTwoProj1.user = ("alice") ∧ recTwoProj2.user = ("alice") ∧
    recTwoProj1.repository = ("o/r") ∧ recTwoProj2.repository = ("o/r") ∧
    recTwoProj1.projectKey ≠ recTwoProj2.projectKey ∧
    (userRepositories [recTwoProj1, recTwoProj2] ("alice")).countP
      (fun t => t.1 == ("o/r")) = 1 :=
  ⟨by decide, by decide, by decide, by decide, by decide, by decide, by decide,
   rollup_lists_dedup_sorted.2.2 [recTwoProj1, recTwoProj2] ("alice") ("o/r")
     (some ("u")) (some ("a")) recTwoProj1 recTwoProj2 (by decide) (by decide)
     (by decide) (by decide) (by decide) (by decide) (by decide)
     (by decide)⟩

/-! ## The maximum group always keeps its label -/

theorem le_foldl_max (l : List Nat) : ∀ a, a ≤ l.foldl max a := by
  induction l with
  | nil => intro a; exact Nat.le_refl a
  | cons y ys ih => intro a; exact Nat.le_trans (Nat.le_max_left a y) (ih (max a y))

theorem mem_le_foldl_max (l : List Nat) : ∀ a x, x ∈ l → x ≤ l.foldl max a := by
  induction l with
  | nil => intro _ _ h; cases h
  | cons y ys ih =>
    intro a x hx
    rcases List.mem_cons.mp hx with rfl | hx2
    · exact Nat.le_trans (Nat.le_max_right a x) (le_foldl_max ys (max a x))
    · exact ih (max a y) x hx2

theorem foldl_max_mem (l : List Nat) : ∀ a, l.foldl max a = a ∨ l.foldl max a ∈ l := by
  induction l with
  | nil => intro a; left; rfl
  | cons y ys ih =>
    intro a
    rw [List.foldl_cons]
    rcases ih (max a y) with h | h
    · rw [h]
      rcases Nat.le_total a y with hay | hya
      · right; rw [Nat.max_eq_right hay]; exact List.mem_cons_self y ys
      · left; exact Nat.max_eq_left hya
    · right; exact List.mem_cons_of_mem y h

theorem maxNat_mem (l : List Nat) (h : l ≠ []) : maxNat l ∈ l := by
  rcases foldl_max_mem l 0 with h0 | hmem
  · obtain ⟨y, ys, rfl⟩ := List.exists_cons_of_ne_nil h
    have hy : y ≤ maxNat (y :: ys) :=
      mem_le_foldl_max (y :: ys) 0 y (List.mem_cons_self y ys)
    have hmax0 : maxNat (y :: ys) = 0 := h0
    have hy0 : y = 0 := Nat.le_antisymm (hmax0 ▸ hy) (Nat.zero_le y)
    rw [maxNat, h0, ← hy0]
    exact List.mem_cons_self y ys
  · exact hmem

theorem pieOverall_map_fst (rows : List (String × Nat × Nat)) :
    (pieOverall rows).map (fun x => x.1) = groupLabels rows := by
  unfold pieOverall pieGrouped
  rw [List.map_map, List.map_map]
  exact List.map_id'' (fun x => rfl) _

theorem groupLabels_nodup (rows : List (String × Nat × Nat)) :
    (groupLabels rows).Nodup :=
  isort_nodup _ _ (List.nodup_dedup _)

theorem max_not_below (m : Nat) (p : ℤ) (_h0 : 0 ≤ p) (h100 : p ≤ 100) :
    belowThreshold m m p = false := by
  unfold belowThreshold
  rw [decide_eq_false_iff_not]
  intro hlt
  have h1 : (m : ℤ) * p ≤ (m : ℤ) * 100 :=
    mul_le_mul_of_nonneg_left h100 (Int.ofNat_nonneg m)
  have h2 : (100 : ℤ) * m = (m : ℤ) * 100 := mul_comm _ _
  omega

theorem max_label_not_lessThan (ov : List (String × Nat)) (p : ℤ)
    (h0 : 0 ≤ p) (h100 : p ≤ 100) (lp : String × Nat) (hmem : lp ∈ ov)
    (hnodup : (ov.map (fun x => x.1)).Nodup)
    (hlp : lp.2 = maxNat (ov.map (fun x => x.2))) :
    lp.1 ∉ pieLessThan ov p := by
  intro hin
  unfold pieLessThan at hin
  rw [List.mem_map] at hin
  obtain ⟨lq, hlq, hfst⟩ := hin
  rw [List.mem_filter] at hlq
  obtain ⟨hlqmem, hlqbelow⟩ := hlq
  have hql : lq = lp := List.inj_on_of_nodup_map hnodup hlqmem hmem hfst
  subst hql
  rw [hlp, max_not_below _ p h0 h100] at hlqbelow
  cases hlqbelow

/-- C10: for a non-empty grouped table and any percentage `0 ≤ p ≤ 100`,
the relabeling of `create_pie_chart` never moves a group whose overall
contribution equals the maximum into `Other` (the cutoff comparison is
strict), so the output buckets always retain at least one original group
label. -/
theorem max_group_retains_label (rows : List (String × Nat × Nat)) (p : ℤ)
    (h0 : 0 ≤ p) (h100 : p ≤ 100) (hne : rows ≠ []) :
    (∀ lp ∈ pieOverall rows, lp.2 = maxNat ((pieOverall rows).map (fun x => x.2)) →
      lp.1 ∉ pieLessThan (pieOverall rows) p) ∧
    ∃ q ∈ pieValueCounts rows p, q.1 ∈ rows.map (fun r => r.1) := by
  have hnodup : ((pieOverall rows).map (fun x => x.1)).Nodup := by
    rw [pieOverall_map_fst]; exact groupLabels_nodup rows
  constructor
  · intro lp hlp hmax
    exact max_label_not_lessThan _ p h0 h100 lp hlp hnodup hmax
  · have hlabne : (rows.map (fun r => r.1)).dedup ≠ [] := by
      intro hnil
      rcases rows with _ | ⟨r, rs⟩
      · exact hne rfl
      · have : r.1 ∈ (((r :: rs).map (fun r => r.1)).dedup : List String) :=
          List.mem_dedup.mpr (List.mem_map_of_mem _ (List.mem_cons_self r rs))
        rw [hnil] at this
        cases this
    have hgl : groupLabels rows ≠ [] := by
      intro hnil
      have := (isort_perm strLe ((rows.map (fun r => r.1)).dedup)).length_eq
      rw [show isort strLe ((rows.map (fun r => r.1)).dedup) = groupLabels rows from rfl,
        hnil] at this
      exact hlabne (List.length_eq_zero.mp this.symm)
    have hovne : pieOverall rows ≠ [] := by
      intro hnil
      have : (pieOverall rows).map (fun x => x.1) = [] := by rw [hnil]; rfl
      rw [pieOverall_map_fst] at this
      exact hgl this
    have hvalne : (pieOverall rows).map (fun x => x.2) ≠ [] := by
      intro hnil
      exact hovne (List.map_eq_nil_iff.mp hnil)
    have hmaxmem := maxNat_mem _ hvalne
    obtain ⟨lp, hlpmem, hlpval⟩ := List.mem_map.mp hmaxmem
    have hnot : lp.1 ∉ pieLessThan (pieOverall rows) p :=
      max_label_not_lessThan _ p h0 h100 lp hlpmem hnodup hlpval
    have hrel : lp ∈ pieRelabeled (pieOverall rows) p := by
      unfold pieRelabeled
      by_cases hp : p ≠ -1
      · rw [if_pos hp]
        exact List.mem_map.mpr ⟨lp, hlpmem, by rw [if_neg hnot]⟩
      · rw [if_neg hp]
        exact hlpmem
    have hlab2 : lp.1 ∈ isort strLe
        ((pieRelabeled (pieOverall rows) p).map (fun x => x.1)).dedup := by
      rw [mem_isort]
      exact List.mem_dedup.mpr (List.mem_map_of_mem _ hrel)
    refine ⟨(lp.1, (((pieRelabeled (pieOverall rows) p).filter
        (fun x => x.1 == lp.1)).map (fun x => x.2)).sum), ?_, ?_⟩
    · unfold pieValueCounts
      rw [mem_isort]
      unfold pieRegrouped
      exact List.mem_map.mpr ⟨lp.1, hlab2, rfl⟩
    · show lp.1 ∈ rows.map (fun r => r.1)
      have hg : lp.1 ∈ groupLabels rows := by
        rw [← pieOverall_map_fst]
        exact List.mem_map_of_mem _ hlpmem
      unfold groupLabels at hg
      rw [mem_isort] at hg
      exact List.mem_dedup.mp hg

/-- Witness for C10: two groups with contributions 3 and 1 and `p = 50`. -/
theorem max_group_retains_label_witness :
    (0 : ℤ) ≤ 50 ∧ (50 : ℤ) ≤ 100 ∧ ([(("A"), 3, 0), (("B"), 1, 0)] :
      List (String × Nat × Nat)) ≠ [] ∧
    ((∀ lp ∈ pieOverall [(("A"), 3, 0), (("B"), 1, 0)],
        lp.2 = maxNat ((pieOverall [(("A"), 3, 0), (("B"), 1, 0)]).map (fun x => x.2)) →
        lp.1 ∉ pieLessThan (pieOverall [(("A"), 3, 0), (("B"), 1, 0)]) 50) ∧
      ∃ q ∈ pieValueCounts [(("A"), 3, 0), (("B"), 1, 0)] 50,
        q.1 ∈ ([(("A"), 3, 0), (("B"), 1, 0)] : List (String × Nat × Nat)).map
          (fun r => r.1)) :=
  ⟨by decide, by decide, by decide,
   max_group_retains_label [(("A"), 3, 0), (("B"), 1, 0)] 50
     (by decide) (by decide) (by decide)⟩
